import Mathlib

/-!
# Verification of the `requirements_notebooks` statistical pipeline

Shallow embedding, in Lean 4 over `ℚ`, of the computations performed by the
LSST requirement-testing notebooks (LVV-T1278, LVV-T960 old and new,
LVV-T297, LVV-T959, LVV-T1068).  Catalogs are modelled by their sizes
together with a pairwise angular-separation table `d : ℕ → ℕ → ℚ`
(the great-circle distance itself is computed by astropy and is opaque to
the notebooks; every computation the notebooks perform on top of it is a
function of this table).  IEEE-754 `NaN` values that arise from empty data
(`np.median([])`, a density histogram of no in-range data) are modelled by
`Option ℚ` with `none` playing the role of `NaN`: every numeric comparison
against `none` is false, and `np.isnan` is `Option.isNone`.
-/

namespace ReqNb

/-! ## `np.argmin` over an index range

`argminUpTo f n` is the least index of a minimal value of `f` on
`{0, …, n-1}` (and `0` when `n = 0`), mirroring `np.argmin`, which returns
the first occurrence of the minimum. -/

def argminUpTo (f : ℕ → ℚ) : ℕ → ℕ
  | 0 => 0
  | n + 1 =>
    let j := argminUpTo f n
    if n = 0 then 0 else if f j ≤ f n then j else n

/-! ## `match_to_catalog_sky`

astropy's `base_cat.match_to_catalog_sky(ref_cat)` returns, for every base
object `i`, the index `idx[i]` of its nearest reference object and the
separation `sep2d[i]` to it. -/

/-- Index, in a reference catalog of `nr` objects, of the nearest reference
object to base object `i`, under separation table `d`. -/
def nearestRefIdx (nr : ℕ) (d : ℕ → ℕ → ℚ) (i : ℕ) : ℕ :=
  argminUpTo (d i) nr

/-- The `idx` array returned by `match_to_catalog_sky` for `nb` base objects
against `nr` reference objects. -/
def matchIdx (nb nr : ℕ) (d : ℕ → ℕ → ℚ) : List ℕ :=
  (List.range nb).map (nearestRefIdx nr d)

/-- The `sep2d` array returned by `match_to_catalog_sky`: the separation
from each base object to its nearest reference object. -/
def matchSep (nb nr : ℕ) (d : ℕ → ℕ → ℚ) : List ℚ :=
  (List.range nb).map (fun i => d i (nearestRefIdx nr d i))

/-! ## `get_best_catalog_match` (LVV-T960)

```python
idx, sep2d, sep3d = base_cat.match_to_catalog_sky(ref_cat)
unique_idx = np.unique(idx)
base_cat_idx, ref_cat_idx, single_match_seps = [], [], []
for index in unique_idx:
    base_cat_rows = np.where(idx == index)[0]
    seps = sep2d[base_cat_rows]
    min_sep_idx = np.argmin(seps)
    base_cat_idx.append(base_cat_rows[min_sep_idx])
    ref_cat_idx.append(index)
    single_match_seps.append(seps[min_sep_idx])
```
`np.unique(idx)` is the sorted list of distinct values of `idx`; since
every value of `idx` lies in `{0, …, nr-1}`, that list is
`(List.range nr).filter (· ∈ idx)`. -/

/-- Separation from base object `i` to its nearest reference object
(`sep2d[i]`). -/
def sepToNearest (nr : ℕ) (d : ℕ → ℕ → ℚ) (i : ℕ) : ℚ :=
  d i (nearestRefIdx nr d i)

/-- `np.where(idx == index)[0]`: base rows whose nearest reference is `v`. -/
def baseCatRows (nb nr : ℕ) (d : ℕ → ℕ → ℚ) (v : ℕ) : List ℕ :=
  (List.range nb).filter (fun i => nearestRefIdx nr d i = v)

/-- `base_cat_rows[np.argmin(seps)]`: among the base rows whose nearest
reference is `v`, the one with the smallest separation. -/
def bestBaseRow (nb nr : ℕ) (d : ℕ → ℕ → ℚ) (v : ℕ) : ℕ :=
  let rows := baseCatRows nb nr d v
  rows.getD (argminUpTo (fun k => sepToNearest nr d (rows.getD k 0)) rows.length) 0

/-- `ref_cat_idx`: `np.unique(idx)`. -/
def refCatIdx (nb nr : ℕ) (d : ℕ → ℕ → ℚ) : List ℕ :=
  (List.range nr).filter (fun v => v ∈ matchIdx nb nr d)

/-- `base_cat_idx`. -/
def baseCatIdx (nb nr : ℕ) (d : ℕ → ℕ → ℚ) : List ℕ :=
  (refCatIdx nb nr d).map (bestBaseRow nb nr d)

/-- `single_match_seps`. -/
def singleMatchSeps (nb nr : ℕ) (d : ℕ → ℕ → ℚ) : List ℚ :=
  (refCatIdx nb nr d).map (fun v => sepToNearest nr d (bestBaseRow nb nr d v))

/-- The triple returned by `get_best_catalog_match(base_cat, ref_cat)`. -/
def get_best_catalog_match (nb nr : ℕ) (d : ℕ → ℕ → ℚ) :
    List ℕ × List ℕ × List ℚ :=
  (baseCatIdx nb nr d, refCatIdx nb nr d, singleMatchSeps nb nr d)

/-! ## LVV-T1068 match rejection and duplicate pruning

```python
matched_idx, d2d, d3d = deep_coords.match_to_catalog_sky(u_deep_coords)
max_sep = 0.5*u.arcsec
matched_idx[np.where(d2d > max_sep)] = -99
unique_idx, idx_counts = np.unique(matched_idx, return_counts=True)
for idx_match, idx_count in zip(unique_idx, idx_counts):
    if idx_match == -99: continue
    elif idx_count == 1: continue
    else:
        duplicate_deep_idx = np.where(matched_idx == idx_match)[0]
        duplicate_distances = d2d[duplicate_deep_idx]
        min_dist_idx = np.argsort(duplicate_distances)
        matched_idx[duplicate_deep_idx[min_dist_idx[1:]]] = -99
```
The loop keeps, within each class of rows sharing a non-sentinel matched
index, exactly the row ranked first by `np.argsort` on distance and
sets the others to `-99`; on distance ties the surviving row is the
tie-break choice of `argsort`, modelled here as the smallest row index
(the claims proved below do not depend on the tie-break). -/

/-- `matched_idx[np.where(d2d > max_sep)] = -99`. -/
def rejectFar (m : List ℤ) (d2 : List ℚ) (maxSep : ℚ) : List ℤ :=
  List.zipWith (fun v s => if maxSep < s then (-99 : ℤ) else v) m d2

/-- Row `i` survives duplicate pruning: among all rows matched to the same
index, it has strictly minimal distance, or minimal distance and the
smallest row number. -/
def survivesDedup (m : List ℤ) (d2 : List ℚ) (i : ℕ) : Prop :=
  ∀ j < m.length, m.getD j (-99) = m.getD i (-99) →
    d2.getD i 0 < d2.getD j 0 ∨ (d2.getD i 0 = d2.getD j 0 ∧ i ≤ j)

instance (m : List ℤ) (d2 : List ℚ) (i : ℕ) :
    Decidable (survivesDedup m d2 i) := by
  unfold survivesDedup
  infer_instance

/-- The duplicate-pruning loop: each row keeps its matched index only if it
is the closest (first, under `argsort` order) row of its class; all other
rows of the class become `-99`. -/
def dedupPass (m : List ℤ) (d2 : List ℚ) : List ℤ :=
  (List.range m.length).map fun i =>
    if m.getD i (-99) = -99 then -99
    else if survivesDedup m d2 i then m.getD i (-99) else -99

/-- `np.where(matched_idx > -1)[0]`. -/
def found_objects_idx (m : List ℤ) : List ℕ :=
  (List.range m.length).filter (fun i => (-1 : ℤ) < m.getD i (-99))

/-- `1. - len(found_objects_idx)/len(deep_coords)` (the deep catalog has
exactly `len(matched_idx)` rows). -/
def false_positive_frac (m : List ℤ) : ℚ :=
  1 - ((found_objects_idx m).length : ℚ) / (m.length : ℚ)

/-- The full matched-index array of LVV-T1068: astropy match, rejection of
matches beyond `maxSep`, duplicate pruning. -/
def t1068MatchedIdx (nb nr : ℕ) (d : ℕ → ℕ → ℚ) (maxSep : ℚ) : List ℤ :=
  dedupPass (rejectFar ((matchIdx nb nr d).map Int.ofNat) (matchSep nb nr d) maxSep)
    (matchSep nb nr d)

/-! ## IEEE `NaN` model and numpy statistics

A possibly-`NaN` float is an `Option ℚ`; `none` is `NaN`.  Any `>`
comparison against `NaN` is false, as in IEEE 754. -/

/-- `x > c` under IEEE semantics: false when `x` is `NaN`. -/
def optGt : Option ℚ → ℚ → Bool
  | none, _ => false
  | some x, c => decide (c < x)

/-- Multiply a possibly-`NaN` value by a constant (`NaN` propagates). -/
def optScale (m : Option ℚ) (k : ℚ) : Option ℚ :=
  m.map (fun x => x * k)

/-- `1 - x` on a possibly-`NaN` value (`NaN` propagates). -/
def optOneSub (m : Option ℚ) : Option ℚ :=
  m.map (fun x => 1 - x)

/-- `np.isnan`. -/
def npIsNan (m : Option ℚ) : Bool :=
  m.isNone

/-- `np.median`: `NaN` on empty input, else the middle element of the
sorted data (odd length) or the mean of the two middle elements (even
length). -/
def npMedian (l : List ℚ) : Option ℚ :=
  if l = [] then none
  else
    some (let s := l.mergeSort (fun a b => decide (a ≤ b))
          if l.length % 2 = 1 then s.getD (l.length / 2) 0
          else (s.getD (l.length / 2 - 1) 0 + s.getD (l.length / 2) 0) / 2)

/-! ## `plt.hist(..., range=(lo, hi), bins=nbins, cumulative=True, density=True)`

`np.histogram` drops data outside `[lo, hi]`; bin `j` is
`[e_j, e_{j+1})`, except the last bin which also contains `hi`.  With
`density=True` each count is divided by the number of in-range data points
(times the bin width), so the cumulative value at bin `k` is the fraction
of *in-range* data in bins `0..k`; when no data is in range the division
is `0/0 = NaN`.  The notebooks read the cumulative fraction at
`np.where(bins < cut)[0][-1]`, the index of the last bin edge below the
cut. -/

/-- Bin edge `j` of `np.histogram(range=(lo, hi), bins=nbins)`. -/
def histEdge (lo hi : ℚ) (nbins j : ℕ) : ℚ :=
  lo + j * (hi - lo) / nbins

/-- Number of data points in bin `j`. -/
def binCount (data : List ℚ) (lo hi : ℚ) (nbins j : ℕ) : ℕ :=
  if j + 1 = nbins then
    (data.filter (fun x =>
      decide (histEdge lo hi nbins j ≤ x) && decide (x ≤ hi))).length
  else
    (data.filter (fun x =>
      decide (histEdge lo hi nbins j ≤ x) &&
        decide (x < histEdge lo hi nbins (j + 1)))).length

/-- Number of data points inside the histogram range. -/
def inRangeCount (data : List ℚ) (lo hi : ℚ) : ℕ :=
  (data.filter (fun x => decide (lo ≤ x) && decide (x ≤ hi))).length

/-- `n[k]` of the cumulative density histogram: fraction of in-range data
in bins `0..k`; `NaN` when no data is in range. -/
def cumHistAt (data : List ℚ) (lo hi : ℚ) (nbins k : ℕ) : Option ℚ :=
  if inRangeCount data lo hi = 0 then none
  else some (((∑ j ∈ Finset.range (k + 1), binCount data lo hi nbins j : ℕ) : ℚ) /
    (inRangeCount data lo hi : ℚ))

/-- `np.where(bins < cut)[0][-1]`: index of the last bin edge below `cut`. -/
def lastEdgeIdxBelow (lo hi : ℚ) (nbins : ℕ) (cut : ℚ) : ℕ :=
  ((List.range (nbins + 1)).filter
    (fun j => decide (histEdge lo hi nbins j < cut))).length - 1

/-- `n[np.where(bins < cut)[0][-1]]`, the histogram-based cumulative
fraction used by the notebooks as `current_outlier_frac_*`. -/
def cumFracBelowCut (data : List ℚ) (lo hi : ℚ) (nbins : ℕ) (cut : ℚ) :
    Option ℚ :=
  cumHistAt data lo hi nbins (lastEdgeIdxBelow lo hi nbins cut)

/-! ## Separation tables and band selection -/

/-- A row of `sep_df` in LVV-T960 (old and new): measured (`sep_hsc`) and
reference (`sep_gaia`) separation of one generated pair. -/
structure SepPair where
  hsc : ℚ
  gaia : ℚ
deriving DecidableEq

/-- `sep_df['diff'] = sep_df['sep_gaia'] - sep_df['sep_hsc']`. -/
def diffCol (r : SepPair) : ℚ :=
  r.gaia - r.hsc

/-- `sep_df.query('sep_gaia > center-lims and sep_gaia < center+lims')`. -/
def bandRows (rows : List SepPair) (center lims : ℚ) : List SepPair :=
  rows.filter (fun r =>
    decide (center - lims < r.gaia) && decide (r.gaia < center + lims))

/-- `np.abs(band_df['diff'])`: the data every band statistic is taken
over. -/
def bandAbsDiffs (rows : List SepPair) (center lims : ℚ) : List ℚ :=
  (bandRows rows center lims).map (fun r => |diffCol r|)

/-- `np.median(np.abs(band_df['diff']))` of a separation band
(`center` in arcseconds, `lims = 30`). -/
def median_diff_band (rows : List SepPair) (center : ℚ) : Option ℚ :=
  npMedian (bandAbsDiffs rows center 30)

/-- `current_outlier_frac_*` of the old LVV-T960 notebook: cumulative
density histogram over `range=(0, 0.1)` with 10 bins, read at the last
edge below `0.02`. -/
def current_outlier_frac_band (rows : List SepPair) (center : ℚ) : Option ℚ :=
  cumFracBelowCut (bandAbsDiffs rows center 30) 0 (1/10) 10 (1/50)

/-- `outlier_frac_*_arcmin` of LVV-T1278 and the new LVV-T960:
`len(np.where(np.abs(df['diff'])*1000 > 20)[0]) / len(df)`. -/
def outlier_frac_direct (df : List SepPair) : ℚ :=
  (((df.filter (fun r => decide (20 < |diffCol r| * 1000))).length : ℚ)) /
    (df.length : ℚ)

/-- A row of `sep_df` in LVV-T1278: the separations of one generated pair
as measured in visit 1 and in visit 2. -/
structure VisitPair where
  sep1 : ℚ
  sep2 : ℚ
deriving DecidableEq

/-- `sep_df['diff'] = sep_df['sep_visit_1'] - sep_df['sep_visit_2']`. -/
def visitDiff (r : VisitPair) : ℚ :=
  r.sep1 - r.sep2

/-- LVV-T1278: `sep_df.query('sep_visit_1 > 300-30 and sep_visit_1 < 300+30')`. -/
def five_arcmin_df_t1278 (rows : List VisitPair) : List VisitPair :=
  rows.filter (fun r =>
    decide (300 - 30 < r.sep1) && decide (r.sep1 < 300 + 30))

/-- LVV-T1278: `sep_df.query('sep_visit_1 > 1200-30 and sep_visit_2 < 1200+30')`
(note: the lower bound tests `sep_visit_1`, the upper bound `sep_visit_2`,
exactly as in the notebook). -/
def twenty_arcmin_df_t1278 (rows : List VisitPair) : List VisitPair :=
  rows.filter (fun r =>
    decide (1200 - 30 < r.sep1) && decide (r.sep2 < 1200 + 30))

/-! ## Requirement-testing stages -/

/-- `if median*1000 > c:` — one median test of the old LVV-T960. -/
def errMedian (m : Option ℚ) (c : ℚ) : Bool :=
  optGt (optScale m 1000) c

/-- `if (1 - frac)*100 > 10:` — one outlier-fraction test. -/
def errOutlier (f : Option ℚ) : Bool :=
  optGt (optScale (optOneSub f) 100) 10

/-- The 200-arcmin median test with its `elif np.isnan(...)` branch. -/
def errMedianNan (m : Option ℚ) (c : ℚ) : Bool :=
  if errMedian m c then true else npIsNan m

/-- The 200-arcmin outlier test with its `elif np.isnan(...)` branch. -/
def errOutlierNan (f : Option ℚ) : Bool :=
  if errOutlier f then true else npIsNan f

/-- `error_present` after all six test cells of the old LVV-T960: the 5-
and 20-arcmin tests have no `NaN` branch, the 200-arcmin tests do, and
the 200-arcmin median is compared against `10.` (milliarcseconds). -/
def t960old_error_present (m5 f5 m20 f20 m200 f200 : Option ℚ) : Bool :=
  errMedian m5 10 || errOutlier f5 || errMedian m20 10 || errOutlier f20 ||
    errMedianNan m200 10 || errOutlierNan f200

/-- `if error_present is True: raise RequirementFailure(error_msg)`. -/
def t960old_raises (m5 f5 m20 f20 m200 f200 : Option ℚ) : Bool :=
  t960old_error_present m5 f5 m20 f20 m200 f200

/-- The old LVV-T960 stage run on the actual statistics of a separation
table (5 arcmin = 300 arcsec, 20 arcmin = 1200 arcsec, 200 arcmin =
12000 arcsec). -/
def t960old_raises_rows (rows : List SepPair) : Bool :=
  t960old_raises (median_diff_band rows 300) (current_outlier_frac_band rows 300)
    (median_diff_band rows 1200) (current_outlier_frac_band rows 1200)
    (median_diff_band rows 12000) (current_outlier_frac_band rows 12000)

/-- LVV-T297: `if ra_median_sep*1000. > 50: raise RequirementFailure(...)`,
then the same for dec; a failure is raised iff either test fires. -/
def t297_raises (ra_median_sep dec_median_sep : ℚ) : Bool :=
  decide (50 < ra_median_sep * 1000) || decide (50 < dec_median_sep * 1000)

/-- LVV-T959 `error_present`: RMS test then outlier-fraction test. -/
def t959_error_present (rms_diff : ℚ) (current_outlier_frac : Option ℚ) :
    Bool :=
  decide (10 < rms_diff * 1000) || errOutlier current_outlier_frac

/-- LVV-T959 final cell, `raise` branch: raises iff `fail_in_notebook`
and `error_present`. -/
def t959_raises (fail_in_notebook : Bool) (rms_diff : ℚ)
    (current_outlier_frac : Option ℚ) : Bool :=
  fail_in_notebook && t959_error_present rms_diff current_outlier_frac

/-- LVV-T959 final cell, `print` branch: prints the error message iff
not `fail_in_notebook` and `error_present`. -/
def t959_prints (fail_in_notebook : Bool) (rms_diff : ℚ)
    (current_outlier_frac : Option ℚ) : Bool :=
  !fail_in_notebook && t959_error_present rms_diff current_outlier_frac

/-! ## LVV-T959 inter-band RMS

```python
sep_differences = []
for r_sep, test_sep in zip(r_seps, test_seps):
    sep_differences.append(r_sep - test_sep)
sep_differences = np.array(sep_differences)
rms_diff = np.sqrt(np.mean(np.square(sep_differences)))
```
`np.sqrt` is applied identically on the code side and in the spec's
formula, so the development works with the radicand, which is rational. -/

/-- The per-pair separation differences (r-band minus test band). -/
def sep_differences (r_seps test_seps : List ℚ) : List ℚ :=
  List.zipWith (fun r t => r - t) r_seps test_seps

/-- `np.square`. -/
def npSquare (l : List ℚ) : List ℚ :=
  l.map (fun x => x * x)

/-- `np.mean` (on nonempty data; the notebooks only take means of the
generated pair list). -/
def npMean (l : List ℚ) : ℚ :=
  l.sum / (l.length : ℚ)

/-- The square of `rms_diff = np.sqrt(np.mean(np.square(sep_differences)))`. -/
def rms_diff_sq (r_seps test_seps : List ℚ) : ℚ :=
  npMean (npSquare (sep_differences r_seps test_seps))

/-! ## `itertools.combinations(sample, 2)` (LVV-T1278 / LVV-T960) -/

/-- `combinations(sample, 2)` emits, for each element, its pairs with all
later elements, in order. -/
def combinations2 : List ℕ → List (ℕ × ℕ)
  | [] => []
  | x :: xs => (xs.map (fun y => (x, y))) ++ combinations2 xs

/-! ## Spec-side definitions (for comparison with the code) -/

/-- Stated from the spec's words (claim C1): base object `i` and reference
object `j` are mutually best iff each is the other's nearest neighbour. -/
def mutuallyBest (nb nr : ℕ) (d : ℕ → ℕ → ℚ) (i j : ℕ) : Prop :=
  nearestRefIdx nr d i = j ∧ argminUpTo (fun k => d k j) nb = i

instance (nb nr : ℕ) (d : ℕ → ℕ → ℚ) (i j : ℕ) :
    Decidable (mutuallyBest nb nr d i j) := by
  unfold mutuallyBest
  infer_instance

/-- Stated from the spec's words (claim C2): a median statistic meets its
numeric requirement `median ≤ c` milliarcseconds only if it is an actual
number (an IEEE `NaN` meets no numeric requirement). -/
def meetsMedianReq (m : Option ℚ) (c : ℚ) : Prop :=
  ∃ x, m = some x ∧ x * 1000 ≤ c

/-- Stated from the spec's words (claim C2): a (complemented) outlier
fraction meets the requirement `(1 - frac) * 100 ≤ 10` only if it is an
actual number. -/
def meetsOutlierReq (f : Option ℚ) : Prop :=
  ∃ x, f = some x ∧ (1 - x) * 100 ≤ 10

/-! ## Concrete example inputs used by counterexamples and witnesses -/

/-- A two-by-two separation table: base 0 is nearest to reference 0
(5 vs 10) and base 1 to reference 1 (1 vs 2), yet reference 0's nearest
base is base 1 (2 vs 5). -/
def dEx2 : ℕ → ℕ → ℚ
  | 0, 0 => 5
  | 0, 1 => 10
  | 1, 0 => 2
  | 1, 1 => 1
  | _, _ => 100

/-- A separation table for two base objects and one reference object
(all separations equal). -/
def dEx1 : ℕ → ℕ → ℚ :=
  fun _ _ => 1

/-- Two pairs, one in the 20-arcmin band and one in the 200-arcmin band,
both with zero separation difference; the 5-arcmin band is empty. -/
def rowsEmpty5 : List SepPair :=
  [⟨1200, 1200⟩, ⟨12000, 12000⟩]

/-- One pair in the 200-arcmin band with a 12-milliarcsecond separation
difference. -/
def rowsMed12 : List SepPair :=
  [⟨12000 - 12/1000, 12000⟩]

/-- One pair in the 200-arcmin band with a 25-milliarcsecond separation
difference. -/
def rowsOut25 : List SepPair :=
  [⟨12000 - 25/1000, 12000⟩]

/-- Two pairs in the 5-arcmin band: separation errors of 5 mas and
200 mas; the 200 mas pair lies outside the histogram range `(0, 0.1)`. -/
def rowsHist : List SepPair :=
  [⟨300 - 1/200, 300⟩, ⟨300 - 1/5, 300⟩]

theorem argminUpTo_lt (f : ℕ → ℚ) : ∀ n : ℕ, 0 < n → argminUpTo f n < n := by
  intro n
  induction n with
  | zero => intro h; exact absurd h (lt_irrefl 0)
  | succ m ih =>
    intro _
    show (if m = 0 then 0 else if f (argminUpTo f m) ≤ f m then argminUpTo f m else m) < m + 1
    by_cases hm : m = 0
    · simp [hm]
    · have hm' : 0 < m := Nat.pos_of_ne_zero hm
      by_cases hle : f (argminUpTo f m) ≤ f m
      · simp only [hm, if_false, hle, if_true]
        exact Nat.lt_succ_of_lt (ih hm')
      · simp only [hm, if_false, hle, if_false]
        exact Nat.lt_succ_self m

theorem argminUpTo_min (f : ℕ → ℚ) : ∀ n : ℕ, ∀ i < n, f (argminUpTo f n) ≤ f i := by
  intro n
  induction n with
  | zero => intro i hi; exact absurd hi (Nat.not_lt_zero i)
  | succ m ih =>
    intro i hi
    show f (if m = 0 then 0 else if f (argminUpTo f m) ≤ f m then argminUpTo f m else m) ≤ f i
    by_cases hm : m = 0
    · subst hm
      interval_cases i
      simp
    · by_cases hle : f (argminUpTo f m) ≤ f m
      · simp only [hm, if_false, hle, if_true]
        rcases Nat.lt_succ_iff_lt_or_eq.mp hi with h | h
        · exact ih i h
        · subst h; exact hle
      · simp only [hm, if_false, hle, if_false]
        rcases Nat.lt_succ_iff_lt_or_eq.mp hi with h | h
        · exact le_trans (le_of_lt (lt_of_not_le hle)) (ih i h)
        · subst h; exact le_refl _

theorem nearestRefIdx_lt (nr : ℕ) (d : ℕ → ℕ → ℚ) (i : ℕ) (h : 0 < nr) :
    nearestRefIdx nr d i < nr :=
  argminUpTo_lt (d i) nr h

theorem nearestRefIdx_min (nr : ℕ) (d : ℕ → ℕ → ℚ) (i : ℕ) :
    ∀ j < nr, d i (nearestRefIdx nr d i) ≤ d i j :=
  argminUpTo_min (d i) nr

theorem getD_mem_of_lt {α : Type} (l : List α) (d0 : α) {n : ℕ}
    (h : n < l.length) : l.getD n d0 ∈ l := by
  rw [List.getD_eq_getElem l d0 h]
  exact List.getElem_mem h

theorem exists_getD_eq_of_mem {α : Type} {l : List α} {a : α} (d0 : α)
    (h : a ∈ l) : ∃ k, k < l.length ∧ l.getD k d0 = a := by
  obtain ⟨i, hi, hia⟩ := List.mem_iff_getElem.mp h
  exact ⟨i, hi, by rw [List.getD_eq_getElem l d0 hi]; exact hia⟩

theorem refCatIdx_nodup (nb nr : ℕ) (d : ℕ → ℕ → ℚ) :
    (refCatIdx nb nr d).Nodup :=
  (List.nodup_range nr).filter _

theorem mem_baseCatRows {nb nr : ℕ} {d : ℕ → ℕ → ℚ} {v i : ℕ} :
    i ∈ baseCatRows nb nr d v ↔ i < nb ∧ nearestRefIdx nr d i = v := by
  simp [baseCatRows]

theorem baseCatRows_ne_nil {nb nr : ℕ} {d : ℕ → ℕ → ℚ} {v : ℕ}
    (h : v ∈ refCatIdx nb nr d) : baseCatRows nb nr d v ≠ [] := by
  have hv : v ∈ matchIdx nb nr d := by
    have := List.of_mem_filter h
    simpa using this
  rw [matchIdx, List.mem_map] at hv
  obtain ⟨i, hi, hiv⟩ := hv
  intro hnil
  have : i ∈ baseCatRows nb nr d v :=
    mem_baseCatRows.mpr ⟨List.mem_range.mp hi, hiv⟩
  rw [hnil] at this
  exact List.not_mem_nil i this

theorem bestBaseRow_mem {nb nr : ℕ} {d : ℕ → ℕ → ℚ} {v : ℕ}
    (h : v ∈ refCatIdx nb nr d) :
    bestBaseRow nb nr d v ∈ baseCatRows nb nr d v := by
  have hne := baseCatRows_ne_nil h
  have hlen : 0 < (baseCatRows nb nr d v).length := List.length_pos.mpr hne
  rw [bestBaseRow]
  exact getD_mem_of_lt _ _ (argminUpTo_lt _ _ hlen)

theorem bestBaseRow_min {nb nr : ℕ} {d : ℕ → ℕ → ℚ} {v : ℕ} :
    ∀ i ∈ baseCatRows nb nr d v,
      sepToNearest nr d (bestBaseRow nb nr d v) ≤ sepToNearest nr d i := by
  intro i hi
  obtain ⟨k, hk, hik⟩ := exists_getD_eq_of_mem 0 hi
  rw [bestBaseRow, ← hik]
  exact argminUpTo_min (fun k => sepToNearest nr d ((baseCatRows nb nr d v).getD k 0))
    (baseCatRows nb nr d v).length k hk

theorem dedupPass_length (m : List ℤ) (d2 : List ℚ) :
    (dedupPass m d2).length = m.length := by
  simp [dedupPass]

theorem dedupPass_getD (m : List ℤ) (d2 : List ℚ) {i : ℕ} (hi : i < m.length) :
    (dedupPass m d2).getD i (-99) =
      if m.getD i (-99) = -99 then -99
      else if survivesDedup m d2 i then m.getD i (-99) else -99 := by
  have hlen : i < (dedupPass m d2).length := by rw [dedupPass_length]; exact hi
  rw [List.getD_eq_getElem _ _ hlen]
  simp [dedupPass]

theorem dedupPass_getD_of_ge (m : List ℤ) (d2 : List ℚ) {i : ℕ}
    (hi : m.length ≤ i) : (dedupPass m d2).getD i (-99) = -99 := by
  rw [List.getD_eq_default]
  rw [dedupPass_length]
  exact hi

/-- Every entry of the pruned array is the sentinel or the original entry. -/
theorem dedupPass_getD_eq_or (m : List ℤ) (d2 : List ℚ) (i : ℕ) :
    (dedupPass m d2).getD i (-99) = -99 ∨
      (dedupPass m d2).getD i (-99) = m.getD i (-99) := by
  rcases lt_or_le i m.length with hi | hi
  · rw [dedupPass_getD m d2 hi]
    by_cases h1 : m.getD i (-99) = -99
    · rw [if_pos h1]
      exact Or.inl rfl
    · by_cases h2 : survivesDedup m d2 i
      · rw [if_neg h1, if_pos h2]
        exact Or.inr rfl
      · rw [if_neg h1, if_neg h2]
        exact Or.inl rfl
  · exact Or.inl (dedupPass_getD_of_ge m d2 hi)

/-- After pruning, two different rows never share a non-sentinel index. -/
theorem dedupPass_distinct (m : List ℤ) (d2 : List ℚ) {i j : ℕ}
    (hij : i ≠ j) (hi : (dedupPass m d2).getD i (-99) ≠ -99) :
    (dedupPass m d2).getD i (-99) ≠ (dedupPass m d2).getD j (-99) := by
  intro heq
  have hj : (dedupPass m d2).getD j (-99) ≠ -99 := heq ▸ hi
  have hilt : i < m.length := by
    by_contra hle
    exact hi (dedupPass_getD_of_ge m d2 (le_of_not_lt hle))
  have hjlt : j < m.length := by
    by_contra hle
    exact hj (dedupPass_getD_of_ge m d2 (le_of_not_lt hle))
  rw [dedupPass_getD m d2 hilt] at hi heq
  rw [dedupPass_getD m d2 hjlt] at hj heq
  by_cases hmi : m.getD i (-99) = -99
  · rw [if_pos hmi] at hi
    exact hi rfl
  by_cases hsi : survivesDedup m d2 i
  swap
  · rw [if_neg hmi, if_neg hsi] at hi
    exact hi rfl
  by_cases hmj : m.getD j (-99) = -99
  · rw [if_pos hmj] at hj
    exact hj rfl
  by_cases hsj : survivesDedup m d2 j
  swap
  · rw [if_neg hmj, if_neg hsj] at hj
    exact hj rfl
  rw [if_neg hmi, if_pos hsi, if_neg hmj, if_pos hsj] at heq
  have h1 := hsi j hjlt heq.symm
  have h2 := hsj i hilt heq
  rcases h1 with h1 | ⟨h1e, h1le⟩ <;> rcases h2 with h2 | ⟨h2e, h2le⟩
  · exact absurd (lt_trans h1 h2) (lt_irrefl _)
  · exact absurd h1 (h2e ▸ lt_irrefl _)
  · exact absurd h2 (h1e ▸ lt_irrefl _)
  · exact hij (le_antisymm h1le h2le)

/-- A duplicate-free list of naturals all below `n` has at most `n`
elements. -/
theorem nodup_length_le {l : List ℕ} (hn : l.Nodup) {n : ℕ}
    (h : ∀ v ∈ l, v < n) : l.length ≤ n := by
  have hcard : l.toFinset.card = l.length := List.toFinset_card_of_nodup hn
  have hsub : l.toFinset ⊆ Finset.range n := by
    intro v hv
    rw [Finset.mem_range]
    exact h v (List.mem_toFinset.mp hv)
  calc l.length = l.toFinset.card := hcard.symm
    _ ≤ (Finset.range n).card := Finset.card_le_card hsub
    _ = n := Finset.card_range n

theorem rejectFar_length (m : List ℤ) (d2 : List ℚ) (maxSep : ℚ) :
    (rejectFar m d2 maxSep).length = min m.length d2.length :=
  List.length_zipWith _ _ _

theorem rejectFar_getD_eq_or (m : List ℤ) (d2 : List ℚ) (maxSep : ℚ) (i : ℕ) :
    (rejectFar m d2 maxSep).getD i (-99) = -99 ∨
      (rejectFar m d2 maxSep).getD i (-99) = m.getD i (-99) := by
  rcases lt_or_le i (rejectFar m d2 maxSep).length with hi | hi
  · have him : i < m.length := by
      have := hi
      rw [rejectFar_length] at this
      exact lt_of_lt_of_le this (min_le_left _ _)
    have hid2 : i < d2.length := by
      have := hi
      rw [rejectFar_length] at this
      exact lt_of_lt_of_le this (min_le_right _ _)
    rw [List.getD_eq_getElem _ _ hi]
    simp only [rejectFar]
    rw [List.getElem_zipWith]
    by_cases hs : maxSep < d2[i]
    · rw [if_pos hs]
      exact Or.inl rfl
    · rw [if_neg hs]
      exact Or.inr (List.getD_eq_getElem m (-99) him).symm
  · exact Or.inl (by rw [List.getD_eq_default _ _ hi])

theorem matchIdx_length (nb nr : ℕ) (d : ℕ → ℕ → ℚ) :
    (matchIdx nb nr d).length = nb := by
  simp [matchIdx]

theorem matchSep_length (nb nr : ℕ) (d : ℕ → ℕ → ℚ) :
    (matchSep nb nr d).length = nb := by
  simp [matchSep]

theorem t1068MatchedIdx_length (nb nr : ℕ) (d : ℕ → ℕ → ℚ) (maxSep : ℚ) :
    (t1068MatchedIdx nb nr d maxSep).length = nb := by
  rw [t1068MatchedIdx, dedupPass_length, rejectFar_length]
  simp [matchSep_length, matchIdx_length]

/-- Every entry of the final matched-index array is the sentinel or the
(nonnegative, `< nr`) index of the row's nearest reference object. -/
theorem t1068MatchedIdx_cases (nb nr : ℕ) (d : ℕ → ℕ → ℚ) (maxSep : ℚ)
    (i : ℕ) :
    (t1068MatchedIdx nb nr d maxSep).getD i (-99) = -99 ∨
      ((t1068MatchedIdx nb nr d maxSep).getD i (-99) =
          ((nearestRefIdx nr d i : ℕ) : ℤ) ∧ i < nb) := by
  rcases dedupPass_getD_eq_or
      (rejectFar ((matchIdx nb nr d).map Int.ofNat) (matchSep nb nr d) maxSep)
      (matchSep nb nr d) i with h | h
  · exact Or.inl h
  · rw [t1068MatchedIdx, h]
    rcases rejectFar_getD_eq_or ((matchIdx nb nr d).map Int.ofNat)
        (matchSep nb nr d) maxSep i with h2 | h2
    · exact Or.inl h2
    · rw [h2]
      rcases lt_or_le i nb with hi | hi
      · refine Or.inr ⟨?_, hi⟩
        have hil : i < ((matchIdx nb nr d).map Int.ofNat).length := by
          simp [matchIdx_length, hi]
        rw [List.getD_eq_getElem _ _ hil, List.getElem_map]
        congr 1
        simp [matchIdx]
      · refine Or.inl ?_
        rw [List.getD_eq_default]
        simp [matchIdx_length, hi]

/-- Row indices recorded as found are duplicate-free. -/
theorem found_objects_idx_nodup (m : List ℤ) : (found_objects_idx m).Nodup :=
  (List.nodup_range _).filter _

theorem mem_found_objects_idx {m : List ℤ} {i : ℕ} :
    i ∈ found_objects_idx m ↔ i < m.length ∧ (-1 : ℤ) < m.getD i (-99) := by
  simp [found_objects_idx]

theorem found_length_le_rows (m : List ℤ) :
    (found_objects_idx m).length ≤ m.length := by
  calc (found_objects_idx m).length ≤ (List.range m.length).length :=
        List.length_filter_le _ _
    _ = m.length := List.length_range _

/-- If distinct rows never share a non-sentinel value and all values are
below `n`, at most `n` rows are found. -/
theorem found_length_le_of_distinct (m : List ℤ) (n : ℕ)
    (hd : ∀ i j : ℕ, i ≠ j → m.getD i (-99) ≠ -99 →
      m.getD i (-99) ≠ m.getD j (-99))
    (hb : ∀ i < m.length, (-1 : ℤ) < m.getD i (-99) → m.getD i (-99) < n) :
    (found_objects_idx m).length ≤ n := by
  have hnodup : ((found_objects_idx m).map
      (fun i => (m.getD i (-99)).toNat)).Nodup := by
    refine List.Nodup.map_on ?_ (found_objects_idx_nodup m)
    intro i hi j hj hto
    by_contra hij
    have hi' := (mem_found_objects_idx.mp hi).2
    have hj' := (mem_found_objects_idx.mp hj).2
    have hins : m.getD i (-99) = m.getD j (-99) := by
      have h1 : ((m.getD i (-99)).toNat : ℤ) = m.getD i (-99) :=
        Int.toNat_of_nonneg (by linarith)
      have h2 : ((m.getD j (-99)).toNat : ℤ) = m.getD j (-99) :=
        Int.toNat_of_nonneg (by linarith)
      rw [← h1, ← h2, hto]
    exact hd i j hij (by intro h; rw [h] at hi'; norm_num at hi') hins
  have hlt : ∀ v ∈ (found_objects_idx m).map (fun i => (m.getD i (-99)).toNat),
      v < n := by
    intro v hv
    rw [List.mem_map] at hv
    obtain ⟨i, hi, hiv⟩ := hv
    obtain ⟨hil, hipos⟩ := mem_found_objects_idx.mp hi
    have := hb i hil hipos
    rw [← hiv]
    exact (Int.toNat_lt' (by omega)).mpr (by omega)
  have := nodup_length_le hnodup hlt
  rwa [List.length_map] at this

/-- `1 - found/total` lies in `[0, 1]` when the catalog is nonempty. -/
theorem false_positive_frac_mem (m : List ℤ) (h : 0 < m.length) :
    0 ≤ false_positive_frac m ∧ false_positive_frac m ≤ 1 := by
  have hle : ((found_objects_idx m).length : ℚ) ≤ (m.length : ℚ) := by
    exact_mod_cast found_length_le_rows m
  have hpos : (0 : ℚ) < (m.length : ℚ) := by exact_mod_cast h
  constructor
  · rw [false_positive_frac, sub_nonneg]
    rw [div_le_one hpos]
    exact hle
  · rw [false_positive_frac]
    have : 0 ≤ ((found_objects_idx m).length : ℚ) / (m.length : ℚ) :=
      div_nonneg (by positivity) (le_of_lt hpos)
    linarith

theorem sep_differences_length (r t : List ℚ) (h : r.length = t.length) :
    (sep_differences r t).length = r.length := by
  rw [sep_differences, List.length_zipWith, h, min_self]

theorem npSquare_sum_sep_differences (r t : List ℚ) (h : r.length = t.length) :
    (npSquare (sep_differences r t)).sum =
      ∑ i ∈ Finset.range r.length, (r.getD i 0 - t.getD i 0) ^ 2 := by
  induction r generalizing t with
  | nil =>
    simp [sep_differences, npSquare]
  | cons a r ih =>
    cases t with
    | nil => simp at h
    | cons b t =>
      have h' : r.length = t.length := by simpa using h
      simp only [sep_differences, List.zipWith_cons_cons, npSquare,
        List.map_cons, List.sum_cons, List.length_cons]
      rw [Finset.sum_range_succ']
      simp only [List.getD_cons_succ, List.getD_cons_zero]
      rw [← npSquare, ← sep_differences, ih t h']
      ring

theorem combinations2_length_twice (l : List ℕ) :
    2 * (combinations2 l).length = l.length * (l.length - 1) := by
  induction l with
  | nil => rfl
  | cons x xs ih =>
    simp only [combinations2, List.length_append, List.length_map,
      List.length_cons, Nat.add_sub_cancel]
    rw [Nat.mul_add, ih]
    cases xs with
    | nil => rfl
    | cons y ys =>
      simp only [List.length_cons, Nat.add_sub_cancel]
      ring

theorem mem_combinations2 {l : List ℕ} {p : ℕ × ℕ} (h : p ∈ combinations2 l) :
    p.1 ∈ l ∧ p.2 ∈ l := by
  induction l with
  | nil => simp [combinations2] at h
  | cons x xs ih =>
    rw [combinations2, List.mem_append] at h
    rcases h with h | h
    · rw [List.mem_map] at h
      obtain ⟨y, hy, hp⟩ := h
      rw [← hp]
      exact ⟨List.mem_cons_self x xs, List.mem_cons_of_mem x hy⟩
    · obtain ⟨h1, h2⟩ := ih h
      exact ⟨List.mem_cons_of_mem x h1, List.mem_cons_of_mem x h2⟩

theorem combinations2_no_self {l : List ℕ} (hl : l.Nodup) (a : ℕ) :
    (a, a) ∉ combinations2 l := by
  induction l with
  | nil => simp [combinations2]
  | cons x xs ih =>
    rw [List.nodup_cons] at hl
    rw [combinations2, List.mem_append]
    rintro (h | h)
    · rw [List.mem_map] at h
      obtain ⟨y, hy, hp⟩ := h
      have hx : x = a := congrArg Prod.fst hp
      have hya : y = a := congrArg Prod.snd hp
      exact hl.1 (hx ▸ hya ▸ hy)
    · exact ih hl.2 h

theorem count_map_pair (x : ℕ) (xs : List ℕ) (a b : ℕ) :
    (xs.map (fun y => (x, y))).count (a, b) =
      if x = a then xs.count b else 0 := by
  by_cases hxa : x = a
  · subst hxa
    rw [if_pos rfl]
    induction xs with
    | nil => simp
    | cons y ys ih =>
      simp only [List.map_cons, List.count_cons, ih]
      congr 1
      by_cases hyb : y = b
      · subst hyb
        simp
      · simp [hyb, Prod.ext_iff]
  · rw [if_neg hxa]
    rw [List.count_eq_zero]
    intro hmem
    rw [List.mem_map] at hmem
    obtain ⟨y, _, hp⟩ := hmem
    exact hxa (congrArg Prod.fst hp)

theorem count_combinations2_of_not_mem {l : List ℕ} {a : ℕ}
    (ha : a ∉ l) (b : ℕ) :
    (combinations2 l).count (a, b) = 0 ∧ (combinations2 l).count (b, a) = 0 := by
  constructor
  · rw [List.count_eq_zero]
    intro h
    exact ha (mem_combinations2 h).1
  · rw [List.count_eq_zero]
    intro h
    exact ha (mem_combinations2 h).2

/-- Each unordered pair of distinct sampled objects appears exactly once
in the generated pair list. -/
theorem combinations2_count_unordered {l : List ℕ} (hl : l.Nodup)
    {a b : ℕ} (hab : a ≠ b) (ha : a ∈ l) (hb : b ∈ l) :
    (combinations2 l).count (a, b) + (combinations2 l).count (b, a) = 1 := by
  induction l with
  | nil => exact absurd ha (List.not_mem_nil a)
  | cons x xs ih =>
    rw [List.nodup_cons] at hl
    simp only [combinations2, List.count_append, count_map_pair]
    by_cases hxa : x = a
    · subst hxa
      have hbxs : b ∈ xs := by
        rcases List.mem_cons.mp hb with h | h
        · exact absurd h.symm hab
        · exact h
      have hcb : xs.count b = 1 := List.count_eq_one_of_mem hl.2 hbxs
      rw [if_pos rfl, if_neg hab, hcb]
      have h1 : (combinations2 xs).count (x, b) = 0 :=
        ((count_combinations2_of_not_mem hl.1 b).1)
      have h2 : (combinations2 xs).count (b, x) = 0 :=
        ((count_combinations2_of_not_mem hl.1 b).2)
      omega
    · by_cases hxb : x = b
      · subst hxb
        have haxs : a ∈ xs := by
          rcases List.mem_cons.mp ha with h | h
          · exact absurd h.symm hxa
          · exact h
        have hca : xs.count a = 1 := List.count_eq_one_of_mem hl.2 haxs
        rw [if_neg hxa, if_pos rfl, hca]
        have h1 : (combinations2 xs).count (a, x) = 0 :=
          ((count_combinations2_of_not_mem hl.1 a).2)
        have h2 : (combinations2 xs).count (x, a) = 0 :=
          ((count_combinations2_of_not_mem hl.1 a).1)
        omega
      · have haxs : a ∈ xs := by
          rcases List.mem_cons.mp ha with h | h
          · exact absurd h.symm hxa
          · exact h
        have hbxs : b ∈ xs := by
          rcases List.mem_cons.mp hb with h | h
          · exact absurd h.symm hxb
          · exact h
        rw [if_neg hxa, if_neg hxb]
        have := ih hl.2 haxs hbxs
        omega

theorem getD_map_lt {α β : Type} (l : List α) (f : α → β) (da : α) (db : β)
    {k : ℕ} (hk : k < l.length) :
    (l.map f).getD k db = f (l.getD k da) := by
  have hk' : k < (l.map f).length := by
    rw [List.length_map]; exact hk
  rw [List.getD_eq_getElem _ _ hk', List.getD_eq_getElem _ _ hk,
    List.getElem_map]

/-- Splitting an interval count at an intermediate point. -/
theorem length_filter_split (data : List ℚ) (a b c : ℚ) (hab : a ≤ b)
    (hbc : b ≤ c) :
    (data.filter (fun x => decide (a ≤ x) && decide (x < b))).length +
      (data.filter (fun x => decide (b ≤ x) && decide (x < c))).length =
      (data.filter (fun x => decide (a ≤ x) && decide (x < c))).length := by
  induction data with
  | nil => rfl
  | cons x xs ih =>
    have hsplit : ∀ p : ℚ → Bool, (List.filter p (x :: xs)).length =
        (if p x then 1 else 0) + (List.filter p xs).length := by
      intro p
      rcases hpx : p x with _ | _
      · simp [List.filter_cons, hpx]
      · simp [List.filter_cons, hpx]
        omega
    rw [hsplit, hsplit, hsplit]
    rcases lt_or_le x b with hxb | hxb
    · rcases le_or_lt a x with hax | hax
      · have hc1 : (decide (a ≤ x) && decide (x < b)) = true := by
          simp [hax, hxb]
        have hc2 : (decide (b ≤ x) && decide (x < c)) = false := by
          simp [not_le.mpr hxb]
        have hc3 : (decide (a ≤ x) && decide (x < c)) = true := by
          simp [hax, lt_of_lt_of_le hxb hbc]
        rw [hc1, hc2, hc3]
        simp only [eq_self_iff_true, Bool.false_eq_true, if_true, if_false]
        omega
      · have hc1 : (decide (a ≤ x) && decide (x < b)) = false := by
          simp [not_le.mpr hax]
        have hc2 : (decide (b ≤ x) && decide (x < c)) = false := by
          simp [not_le.mpr (lt_of_lt_of_le hax hab)]
        have hc3 : (decide (a ≤ x) && decide (x < c)) = false := by
          simp [not_le.mpr hax]
        rw [hc1, hc2, hc3]
        simp only [Bool.false_eq_true, if_false]
        omega
    · rcases lt_or_le x c with hxc | hxc
      · have hc1 : (decide (a ≤ x) && decide (x < b)) = false := by
          simp [not_lt.mpr hxb]
        have hc2 : (decide (b ≤ x) && decide (x < c)) = true := by
          simp [hxb, hxc]
        have hc3 : (decide (a ≤ x) && decide (x < c)) = true := by
          simp [le_trans hab hxb, hxc]
        rw [hc1, hc2, hc3]
        simp only [eq_self_iff_true, Bool.false_eq_true, if_true, if_false]
        omega
      · have hc1 : (decide (a ≤ x) && decide (x < b)) = false := by
          simp [not_lt.mpr hxb]
        have hc2 : (decide (b ≤ x) && decide (x < c)) = false := by
          simp [not_lt.mpr hxc]
        have hc3 : (decide (a ≤ x) && decide (x < c)) = false := by
          simp [not_lt.mpr hxc]
        rw [hc1, hc2, hc3]
        simp only [Bool.false_eq_true, if_false]
        omega

theorem histEdge_zero (lo hi : ℚ) (nbins : ℕ) : histEdge lo hi nbins 0 = lo := by
  simp [histEdge]

theorem histEdge_mono (lo hi : ℚ) (nbins : ℕ) (h : lo ≤ hi) {j1 j2 : ℕ}
    (hj : j1 ≤ j2) : histEdge lo hi nbins j1 ≤ histEdge lo hi nbins j2 := by
  rw [histEdge, histEdge]
  have hnn : (0 : ℚ) ≤ (hi - lo) / nbins := by
    apply div_nonneg (by linarith)
    exact Nat.cast_nonneg nbins
  have hj' : (j1 : ℚ) ≤ (j2 : ℚ) := by exact_mod_cast hj
  calc lo + j1 * (hi - lo) / nbins = lo + j1 * ((hi - lo) / nbins) := by ring
    _ ≤ lo + j2 * ((hi - lo) / nbins) := by
        apply add_le_add_left
        exact mul_le_mul_of_nonneg_right hj' hnn
    _ = lo + j2 * (hi - lo) / nbins := by ring

theorem histEdge_le_lo (lo hi : ℚ) (nbins : ℕ) (h : lo ≤ hi) (j : ℕ) :
    lo ≤ histEdge lo hi nbins j := by
  have := histEdge_mono lo hi nbins h (Nat.zero_le j)
  rwa [histEdge_zero] at this

/-- The cumulative count over the first `k + 1` bins is the count of data
between `lo` and edge `k + 1`, as long as none of those bins is the last
(closed) bin. -/
theorem sum_binCount (data : List ℚ) (lo hi : ℚ) (hlohi : lo ≤ hi)
    (nbins : ℕ) : ∀ k, k + 1 < nbins →
    (∑ j ∈ Finset.range (k + 1), binCount data lo hi nbins j) =
      (data.filter (fun x =>
        decide (lo ≤ x) && decide (x < histEdge lo hi nbins (k + 1)))).length := by
  intro k
  induction k with
  | zero =>
    intro hk
    rw [Finset.sum_range_one, binCount, if_neg (by omega)]
    congr 1
    apply List.filter_congr
    intro x _
    rw [histEdge_zero]
  | succ m ih =>
    intro hk
    rw [Finset.sum_range_succ, ih (by omega), binCount, if_neg (by omega)]
    exact length_filter_split data lo (histEdge lo hi nbins (m + 1))
      (histEdge lo hi nbins (m + 2)) (histEdge_le_lo lo hi nbins hlohi _)
      (histEdge_mono lo hi nbins hlohi (by omega))

/-- The histogram-based `current_outlier_frac_*` of the old LVV-T960 is
the fraction of *in-range* data below `0.02`: data above `0.1` are in
neither the numerator nor the denominator. -/
theorem cumFracBelowCut_eq (data : List ℚ)
    (h : inRangeCount data 0 (1/10) ≠ 0) :
    cumFracBelowCut data 0 (1/10) 10 (1/50) =
      some (((data.filter (fun x =>
          decide ((0:ℚ) ≤ x) && decide (x < 1/50))).length : ℚ) /
        (inRangeCount data 0 (1/10) : ℚ)) := by
  rw [cumFracBelowCut]
  have hidx : lastEdgeIdxBelow 0 (1/10) 10 (1/50) = 1 := by
    with_unfolding_all decide
  rw [hidx, cumHistAt, if_neg h]
  congr 2
  rw [sum_binCount data 0 (1/10) (by norm_num) 10 1 (by omega)]
  have hfeq : List.filter (fun x =>
        decide ((0:ℚ) ≤ x) && decide (x < histEdge 0 (1/10) 10 (1 + 1))) data =
      List.filter (fun x => decide ((0:ℚ) ≤ x) && decide (x < 1/50)) data := by
    apply List.filter_congr
    intro x _
    have he : histEdge 0 (1/10) 10 (1 + 1) = 1/50 := by norm_num [histEdge]
    rw [he]
  rw [hfeq]

theorem meetsMedianReq_some (x c : ℚ) :
    meetsMedianReq (some x) c ↔ x * 1000 ≤ c := by
  simp [meetsMedianReq]

theorem meetsOutlierReq_some (x : ℚ) :
    meetsOutlierReq (some x) ↔ (1 - x) * 100 ≤ 10 := by
  simp [meetsOutlierReq]

theorem errMedianNan_some (x c : ℚ) :
    errMedianNan (some x) c = errMedian (some x) c := by
  rw [errMedianNan]
  by_cases h : errMedian (some x) c = true
  · rw [if_pos h, h]
  · rw [if_neg h, npIsNan]
    simp only [Option.isNone_some]
    exact (Bool.not_eq_true _).mp h |>.symm

theorem errOutlierNan_some (x : ℚ) :
    errOutlierNan (some x) = errOutlier (some x) := by
  rw [errOutlierNan]
  by_cases h : errOutlier (some x) = true
  · rw [if_pos h, h]
  · rw [if_neg h, npIsNan]
    simp only [Option.isNone_some]
    exact (Bool.not_eq_true _).mp h |>.symm

/-! ## Claims -/

/-- C6: the inter-band RMS statistic of LVV-T959 equals the square root of
the arithmetic mean of the squares of the per-pair separation differences
(r-band separation minus test-band separation) over all generated pairs:
its radicand `rms_diff_sq` is exactly `(∑ (r_i - t_i)²) / n`, and `np.sqrt`
is applied to precisely that value. -/
theorem c6_rms_spec (r_seps test_seps : List ℚ)
    (h : r_seps.length = test_seps.length) :
    rms_diff_sq r_seps test_seps =
      (∑ i ∈ Finset.range r_seps.length,
        (r_seps.getD i 0 - test_seps.getD i 0) ^ 2) / (r_seps.length : ℚ) ∧
    Real.sqrt ((rms_diff_sq r_seps test_seps : ℚ) : ℝ) =
      Real.sqrt (((∑ i ∈ Finset.range r_seps.length,
        (r_seps.getD i 0 - test_seps.getD i 0) ^ 2 : ℚ) : ℝ) /
          ((r_seps.length : ℚ) : ℝ)) := by
  have hmain : rms_diff_sq r_seps test_seps =
      (∑ i ∈ Finset.range r_seps.length,
        (r_seps.getD i 0 - test_seps.getD i 0) ^ 2) / (r_seps.length : ℚ) := by
    rw [rms_diff_sq, npMean, npSquare_sum_sep_differences _ _ h]
    congr 1
    rw [npSquare, List.length_map, sep_differences_length _ _ h]
  refine ⟨hmain, ?_⟩
  rw [hmain]
  norm_num

/-- C6 witness: the theorem applied to the pair lists `[3, 1]` and
`[1, 2]`. -/
theorem c6_rms_spec_witness :
    rms_diff_sq [3, 1] [1, 2] =
      (∑ i ∈ Finset.range ([(3:ℚ), 1].length),
        ([(3:ℚ), 1].getD i 0 - [(1:ℚ), 2].getD i 0) ^ 2) /
        (([(3:ℚ), 1].length : ℕ) : ℚ) :=
  (c6_rms_spec [3, 1] [1, 2] rfl).1

/-- C7: for a duplicate-free sample, `combinations(sample, 2)` has exactly
`k*(k-1)/2` entries, contains no self-pair, and contains every unordered
pair of distinct sampled objects exactly once. -/
theorem c7_combinations_spec (l : List ℕ) (hl : l.Nodup) :
    (combinations2 l).length = l.length * (l.length - 1) / 2 ∧
    (∀ a : ℕ, (a, a) ∉ combinations2 l) ∧
    (∀ a b : ℕ, a ≠ b → a ∈ l → b ∈ l →
      (combinations2 l).count (a, b) + (combinations2 l).count (b, a) = 1) := by
  refine ⟨?_, combinations2_no_self hl,
    fun a b hab ha hb => combinations2_count_unordered hl hab ha hb⟩
  have := combinations2_length_twice l
  omega

/-- C7 witness: the sample `[5, 2, 9]` yields `3 * 2 / 2 = 3` pairs. -/
theorem c7_combinations_spec_witness :
    (combinations2 [5, 2, 9]).length = 3 := by
  have := (c7_combinations_spec [5, 2, 9] (by decide)).1
  simpa using this

/-- C10: `get_best_catalog_match` returns three lists of equal length; the
returned reference indices are pairwise distinct; and at every returned
position the separation is the minimum of `sep2d` over all base objects
whose nearest reference is that reference index, attained at the returned
base index. -/
theorem c10_best_match_spec (nb nr : ℕ) (d : ℕ → ℕ → ℚ) (k : ℕ)
    (hk : k < (refCatIdx nb nr d).length) :
    (baseCatIdx nb nr d).length = (refCatIdx nb nr d).length ∧
    (singleMatchSeps nb nr d).length = (refCatIdx nb nr d).length ∧
    (refCatIdx nb nr d).Nodup ∧
    (∀ i < nb, nearestRefIdx nr d i = (refCatIdx nb nr d).getD k 0 →
      (singleMatchSeps nb nr d).getD k 0 ≤ sepToNearest nr d i) ∧
    ((baseCatIdx nb nr d).getD k 0 < nb ∧
      nearestRefIdx nr d ((baseCatIdx nb nr d).getD k 0) =
        (refCatIdx nb nr d).getD k 0 ∧
      (singleMatchSeps nb nr d).getD k 0 =
        sepToNearest nr d ((baseCatIdx nb nr d).getD k 0)) := by
  have hv : (refCatIdx nb nr d).getD k 0 ∈ refCatIdx nb nr d :=
    getD_mem_of_lt _ _ hk
  have hbase : (baseCatIdx nb nr d).getD k 0 =
      bestBaseRow nb nr d ((refCatIdx nb nr d).getD k 0) := by
    rw [baseCatIdx]
    exact getD_map_lt _ _ 0 0 hk
  have hseps : (singleMatchSeps nb nr d).getD k 0 =
      sepToNearest nr d (bestBaseRow nb nr d ((refCatIdx nb nr d).getD k 0)) := by
    rw [singleMatchSeps]
    exact getD_map_lt _ _ 0 0 hk
  have hmem := bestBaseRow_mem hv
  obtain ⟨hblt, hbnear⟩ := mem_baseCatRows.mp hmem
  refine ⟨by rw [baseCatIdx, List.length_map],
    by rw [singleMatchSeps, List.length_map],
    refCatIdx_nodup nb nr d, ?_, ?_⟩
  · intro i hi hnear
    rw [hseps]
    exact bestBaseRow_min i (mem_baseCatRows.mpr ⟨hi, hnear⟩)
  · rw [hbase, hseps]
    exact ⟨hblt, hbnear, rfl⟩

/-- C10 witness: the theorem applied to the two-by-two example table at
the first returned position. -/
theorem c10_best_match_spec_witness :
    (refCatIdx 2 2 dEx2).Nodup :=
  (c10_best_match_spec 2 2 dEx2 0 (by with_unfolding_all decide)).2.2.1

/-- C9: after rejection of matches beyond `maxSep` and duplicate pruning,
the non-sentinel entries of `matched_idx` are pairwise distinct, the number
of found (matched) deep rows is at most the number of deep rows and at most
the number of ultradeep rows, and `false_positive_frac` lies in `[0, 1]`. -/
theorem c9_dedup_invariants (nb nr : ℕ) (d : ℕ → ℕ → ℚ) (maxSep : ℚ)
    (hnr : 0 < nr) (hnb : 0 < nb) :
    (∀ i j : ℕ, i ≠ j →
      (t1068MatchedIdx nb nr d maxSep).getD i (-99) ≠ -99 →
      (t1068MatchedIdx nb nr d maxSep).getD i (-99) ≠
        (t1068MatchedIdx nb nr d maxSep).getD j (-99)) ∧
    (found_objects_idx (t1068MatchedIdx nb nr d maxSep)).length ≤ nb ∧
    (found_objects_idx (t1068MatchedIdx nb nr d maxSep)).length ≤ nr ∧
    0 ≤ false_positive_frac (t1068MatchedIdx nb nr d maxSep) ∧
    false_positive_frac (t1068MatchedIdx nb nr d maxSep) ≤ 1 := by
  have hdist : ∀ i j : ℕ, i ≠ j →
      (t1068MatchedIdx nb nr d maxSep).getD i (-99) ≠ -99 →
      (t1068MatchedIdx nb nr d maxSep).getD i (-99) ≠
        (t1068MatchedIdx nb nr d maxSep).getD j (-99) :=
    fun i j hij hi => dedupPass_distinct _ _ hij hi
  have hlen := t1068MatchedIdx_length nb nr d maxSep
  have hbound : ∀ i < (t1068MatchedIdx nb nr d maxSep).length,
      (-1 : ℤ) < (t1068MatchedIdx nb nr d maxSep).getD i (-99) →
      (t1068MatchedIdx nb nr d maxSep).getD i (-99) < nr := by
    intro i _ hpos
    rcases t1068MatchedIdx_cases nb nr d maxSep i with hcase | ⟨hcase, _⟩
    · rw [hcase] at hpos
      norm_num at hpos
    · rw [hcase]
      exact_mod_cast nearestRefIdx_lt nr d i hnr
  have hle := found_length_le_of_distinct _ nr hdist hbound
  have hrows := found_length_le_rows (t1068MatchedIdx nb nr d maxSep)
  rw [hlen] at hrows
  have hfrac := false_positive_frac_mem (t1068MatchedIdx nb nr d maxSep)
    (by rw [hlen]; exact hnb)
  exact ⟨hdist, hrows, hle, hfrac.1, hfrac.2⟩

/-- C9 witness: the theorem applied to the two-by-two example table with
the 0.5-arcsecond rejection radius. -/
theorem c9_dedup_invariants_witness :
    (found_objects_idx (t1068MatchedIdx 2 2 dEx2 (1/2))).length ≤ 2 :=
  (c9_dedup_invariants 2 2 dEx2 (1/2) (by decide) (by decide)).2.1

/-- C1 counterexample: the cross-match does not keep only mutually-best
pairs.  In LVV-T297 the raw `match_to_catalog_sky` pairing is kept with no
pruning: with two base objects and one reference object, the single
reference object is paired with both base objects (`idx = [0, 0]` is not
duplicate-free).  And in LVV-T960's `get_best_catalog_match` on the
two-by-two table `dEx2`, the kept pair `(base 0, ref 0)` is not mutually
best: reference 0's nearest base object is base 1. -/
theorem c1_mutual_best_counterexample :
    ¬ (matchIdx 2 1 dEx1).Nodup ∧
    (baseCatIdx 2 2 dEx2).getD 0 99 = 0 ∧
    (refCatIdx 2 2 dEx2).getD 0 99 = 0 ∧
    ¬ mutuallyBest 2 2 dEx2 0 0 := by
  refine ⟨?_, ?_, ?_, ?_⟩ <;> with_unfolding_all decide

/-- C1 (amended): the cross-match pairs every base object with its nearest
reference object; in LVV-T960 and LVV-T1068 a pruning pass then keeps, for
each reference index, only the closest such base object — so the returned
reference indices are pairwise distinct, the returned base indices are
pairwise distinct, and every kept pair `(b, r)` satisfies "r is b's
nearest reference" (one-sided best, not mutually best); LVV-T297 performs
no pruning at all. -/
theorem c1_cross_match_amended (nb nr : ℕ) (d : ℕ → ℕ → ℚ) :
    (refCatIdx nb nr d).Nodup ∧
    (baseCatIdx nb nr d).Nodup ∧
    ∀ k, k < (refCatIdx nb nr d).length →
      nearestRefIdx nr d ((baseCatIdx nb nr d).getD k 0) =
        (refCatIdx nb nr d).getD k 0 := by
  refine ⟨refCatIdx_nodup nb nr d, ?_, ?_⟩
  · rw [baseCatIdx]
    refine List.Nodup.map_on ?_ (refCatIdx_nodup nb nr d)
    intro v1 hv1 v2 hv2 heq
    have h1 := (mem_baseCatRows.mp (bestBaseRow_mem hv1)).2
    have h2 := (mem_baseCatRows.mp (bestBaseRow_mem hv2)).2
    rw [← h1, ← h2, heq]
  · intro k hk
    have hbase : (baseCatIdx nb nr d).getD k 0 =
        bestBaseRow nb nr d ((refCatIdx nb nr d).getD k 0) := by
      rw [baseCatIdx]
      exact getD_map_lt _ _ 0 0 hk
    rw [hbase]
    exact (mem_baseCatRows.mp (bestBaseRow_mem (getD_mem_of_lt _ _ hk))).2

/-- C1 witness: the amended theorem applied to the two-by-two example
table at the first kept pair. -/
theorem c1_cross_match_amended_witness :
    nearestRefIdx 2 dEx2 ((baseCatIdx 2 2 dEx2).getD 0 0) =
      (refCatIdx 2 2 dEx2).getD 0 0 :=
  (c1_cross_match_amended 2 2 dEx2).2.2 0 (by with_unfolding_all decide)

/-- C2 counterexample: with the 5-arcmin band empty (`rowsEmpty5` has one
pair in the 20-arcmin band and one in the 200-arcmin band) the 5-arcmin
median is `NaN`; it meets no numeric requirement, yet nothing is raised —
the claimed "failure iff some statistic fails" equivalence is false. -/
theorem c2_nan_silent_pass_counterexample :
    ¬ ((t960old_raises_rows rowsEmpty5 = true) ↔
      ¬ (meetsMedianReq (median_diff_band rowsEmpty5 300) 10 ∧
         meetsOutlierReq (current_outlier_frac_band rowsEmpty5 300) ∧
         meetsMedianReq (median_diff_band rowsEmpty5 1200) 10 ∧
         meetsOutlierReq (current_outlier_frac_band rowsEmpty5 1200) ∧
         meetsMedianReq (median_diff_band rowsEmpty5 12000) 10 ∧
         meetsOutlierReq (current_outlier_frac_band rowsEmpty5 12000))) := by
  intro hiff
  have hraise : t960old_raises_rows rowsEmpty5 = false := by
    with_unfolding_all decide
  have hnan : median_diff_band rowsEmpty5 300 = none := by
    with_unfolding_all decide
  have htrue : t960old_raises_rows rowsEmpty5 = true := by
    refine hiff.mpr ?_
    intro hc
    obtain ⟨x, hx, _⟩ := hc.1
    rw [hnan] at hx
    exact Option.noConfusion hx
  rw [hraise] at htrue
  exact Bool.noConfusion htrue

/-- C2 (amended): in each notebook's requirement-testing stage with every
computed statistic an actual number, a failure is raised (or, with
`fail_in_notebook = False` in LVV-T959, the error message is printed) if
and only if some statistic fails its coded numeric comparison; when a 5-
or 20-arcminute band is empty its `NaN` statistic raises nothing, since
only the 200-arcminute tests check `NaN`. -/
theorem c2_failure_iff_amended :
    (∀ ra dec : ℚ,
      (t297_raises ra dec = true ↔ ¬ (ra * 1000 ≤ 50 ∧ dec * 1000 ≤ 50))) ∧
    (∀ (b : Bool) (rms : ℚ) (f : Option ℚ), f.isSome = true →
      ((t959_raises b rms f = true ∨ t959_prints b rms f = true) ↔
        ¬ (rms * 1000 ≤ 10 ∧ meetsOutlierReq f))) ∧
    (∀ m5 f5 m20 f20 m200 f200 : Option ℚ,
      m5.isSome = true → f5.isSome = true → m20.isSome = true →
      f20.isSome = true → m200.isSome = true → f200.isSome = true →
      (t960old_raises m5 f5 m20 f20 m200 f200 = true ↔
        ¬ (meetsMedianReq m5 10 ∧ meetsOutlierReq f5 ∧
           meetsMedianReq m20 10 ∧ meetsOutlierReq f20 ∧
           meetsMedianReq m200 10 ∧ meetsOutlierReq f200))) := by
  refine ⟨?_, ?_, ?_⟩
  · intro ra dec
    rw [t297_raises, Bool.or_eq_true, decide_eq_true_eq, decide_eq_true_eq,
      not_and_or, not_le, not_le]
  · intro b rms f hf
    obtain ⟨x, rfl⟩ := Option.isSome_iff_exists.mp hf
    rw [meetsOutlierReq_some]
    have hsingle : (t959_raises b rms (some x) = true ∨
        t959_prints b rms (some x) = true) ↔
        t959_error_present rms (some x) = true := by
      cases b <;> simp [t959_raises, t959_prints]
    rw [hsingle]
    simp only [t959_error_present, errOutlier, optOneSub, optScale, optGt,
      Option.map_some', Bool.or_eq_true, decide_eq_true_eq]
    constructor
    · intro hor hall
      rcases hor with h | h <;> [linarith [hall.1]; linarith [hall.2]]
    · intro hn
      by_contra hor
      push_neg at hor
      exact hn hor
  · intro m5 f5 m20 f20 m200 f200 h1 h2 h3 h4 h5 h6
    obtain ⟨x1, rfl⟩ := Option.isSome_iff_exists.mp h1
    obtain ⟨x2, rfl⟩ := Option.isSome_iff_exists.mp h2
    obtain ⟨x3, rfl⟩ := Option.isSome_iff_exists.mp h3
    obtain ⟨x4, rfl⟩ := Option.isSome_iff_exists.mp h4
    obtain ⟨x5, rfl⟩ := Option.isSome_iff_exists.mp h5
    obtain ⟨x6, rfl⟩ := Option.isSome_iff_exists.mp h6
    rw [t960old_raises, t960old_error_present, errMedianNan_some,
      errOutlierNan_some, meetsMedianReq_some, meetsMedianReq_some,
      meetsMedianReq_some, meetsOutlierReq_some, meetsOutlierReq_some,
      meetsOutlierReq_some]
    simp only [errMedian, errOutlier, optOneSub, optScale, optGt,
      Option.map_some', Bool.or_eq_true, decide_eq_true_eq]
    constructor
    · intro hor hall
      obtain ⟨a1, a2, a3, a4, a5, a6⟩ := hall
      rcases hor with ((((h | h) | h) | h) | h) | h <;> linarith
    · intro hn
      by_contra hor
      push_neg at hor
      obtain ⟨⟨⟨⟨⟨g1, g2⟩, g3⟩, g4⟩, g5⟩, g6⟩ := hor
      exact hn ⟨g1, g2, g3, g4, g5, g6⟩

/-- C2 witness: the amended equivalence instantiated with six numeric
statistics (a failing 5-arcmin median among them). -/
theorem c2_failure_iff_amended_witness :
    t960old_raises (some 1) (some 1) (some 0) (some 1) (some 0) (some 1) =
        true ↔
      ¬ (meetsMedianReq (some 1) 10 ∧ meetsOutlierReq (some 1) ∧
         meetsMedianReq (some 0) 10 ∧ meetsOutlierReq (some 1) ∧
         meetsMedianReq (some 0) 10 ∧ meetsOutlierReq (some 1)) :=
  c2_failure_iff_amended.2.2 (some 1) (some 1) (some 0) (some 1) (some 0)
    (some 1) rfl rfl rfl rfl rfl rfl

/-- C3: the old LVV-T960's 200-arcminute tests use thresholds that differ
from the ones their failure messages and the stated requirement name.  A
single pair with a 12-mas median difference (≤ the stated 15-mas limit)
nevertheless records an error, because the code compares against `10.`;
and a single pair with a 25-mas difference (not an outlier by the stated
30-mas cut — no difference exceeds 30 mas) records an outlier error,
because the histogram cut is at 20 mas. -/
theorem c3_threshold_mismatch_eval :
    median_diff_band rowsMed12 12000 = some (12/1000) ∧
    errMedianNan (median_diff_band rowsMed12 12000) 10 = true ∧
    (12/1000 : ℚ) * 1000 ≤ 15 ∧
    current_outlier_frac_band rowsOut25 12000 = some 0 ∧
    errOutlierNan (current_outlier_frac_band rowsOut25 12000) = true ∧
    (bandAbsDiffs rowsOut25 12000 30).filter
      (fun x => decide (30 < x * 1000)) = [] := by
  refine ⟨?_, ?_, ?_, ?_, ?_, ?_⟩ <;> with_unfolding_all decide

/-- C4: LVV-T1278's 20-arcminute selection applies its lower bound to
`sep_visit_1` but its upper bound to `sep_visit_2`: the row
`(sep_visit_1, sep_visit_2) = (10000, 0)` is selected although neither
column lies in the 20-arcminute band `(1170, 1230)`. -/
theorem c4_mixed_columns_eval :
    twenty_arcmin_df_t1278 [⟨10000, 0⟩] = [⟨10000, 0⟩] ∧
    ¬ ((1170 : ℚ) < 10000 ∧ (10000 : ℚ) < 1230) ∧
    ¬ ((1170 : ℚ) < 0 ∧ (0 : ℚ) < 1230) := by
  refine ⟨?_, by norm_num, by norm_num⟩
  norm_num [twenty_arcmin_df_t1278, List.filter_cons]

/-- C5 counterexample: on a 5-arcmin band holding one 5-mas error and one
200-mas error, the old LVV-T960's histogram-based outlier fraction is `0`
(the 200-mas pair falls outside the histogram range `(0, 0.1)` and is
dropped from numerator and denominator alike), while the count-over-total
formula the claim states gives `1/2`. -/
theorem c5_histogram_counterexample :
    optOneSub (current_outlier_frac_band rowsHist 300) = some 0 ∧
    outlier_frac_direct (bandRows rowsHist 300 30) = 1/2 ∧
    (0 : ℚ) ≠ 1/2 := by
  refine ⟨?_, ?_, ?_⟩ <;> with_unfolding_all decide

/-- C5 (amended): the directly computed outlier fractions of LVV-T1278 and
the new LVV-T960 equal (count of pairs with error above threshold) /
(all pairs of the subset); the histogram-based fraction of the old
LVV-T960 instead restricts both numerator and denominator to the pairs
with absolute error inside `[0, 0.1]` arcsec, so arbitrarily large errors
drop out of both. -/
theorem c5_outlier_fraction_amended (df : List SepPair) (data : List ℚ)
    (h : inRangeCount data 0 (1/10) ≠ 0) :
    outlier_frac_direct df =
      ((df.countP (fun r => decide (20 < |diffCol r| * 1000)) : ℕ) : ℚ) /
        (df.length : ℚ) ∧
    cumFracBelowCut data 0 (1/10) 10 (1/50) =
      some (((data.filter (fun x =>
          decide ((0:ℚ) ≤ x) && decide (x < 1/50))).length : ℚ) /
        (inRangeCount data 0 (1/10) : ℚ)) := by
  constructor
  · rw [outlier_frac_direct, List.countP_eq_length_filter]
  · exact cumFracBelowCut_eq data h

/-- C5 witness: the amended characterization applied to the
two-pair band of the counterexample. -/
theorem c5_outlier_fraction_amended_witness :
    cumFracBelowCut (bandAbsDiffs rowsHist 300 30) 0 (1/10) 10 (1/50) =
      some ((((bandAbsDiffs rowsHist 300 30).filter (fun x =>
          decide ((0:ℚ) ≤ x) && decide (x < 1/50))).length : ℚ) /
        (inRangeCount (bandAbsDiffs rowsHist 300 30) 0 (1/10) : ℚ)) :=
  (c5_outlier_fraction_amended (bandRows rowsHist 300 30)
    (bandAbsDiffs rowsHist 300 30) (by with_unfolding_all decide)).2

/-- C8: when the 200-arcminute band is empty, the median is `NaN`, the
comparison `NaN > 10` is false, and both 200-arcminute tests nevertheless
record an error through their explicit `np.isnan` branches, so
`error_present` is true and the stage raises regardless of the other
statistics: an empty 200-arcminute band never passes silently. -/
theorem c8_empty_band_failure (rows : List SepPair)
    (h : bandRows rows 12000 30 = []) :
    median_diff_band rows 12000 = none ∧
    optGt (optScale (median_diff_band rows 12000) 1000) 10 = false ∧
    errMedianNan (median_diff_band rows 12000) 10 = true ∧
    current_outlier_frac_band rows 12000 = none ∧
    errOutlierNan (current_outlier_frac_band rows 12000) = true ∧
    ∀ m5 f5 m20 f20 : Option ℚ,
      t960old_raises m5 f5 m20 f20 (median_diff_band rows 12000)
        (current_outlier_frac_band rows 12000) = true := by
  have hd : bandAbsDiffs rows 12000 30 = [] := by
    rw [bandAbsDiffs, h]
    rfl
  have hmed : median_diff_band rows 12000 = none := by
    rw [median_diff_band, hd]
    rfl
  have hfrac : current_outlier_frac_band rows 12000 = none := by
    rw [current_outlier_frac_band, hd]
    rfl
  refine ⟨hmed, by rw [hmed]; rfl, by rw [errMedianNan, hmed]; rfl, hfrac,
    by rw [errOutlierNan, hfrac]; rfl, ?_⟩
  intro m5 f5 m20 f20
  rw [t960old_raises, t960old_error_present, hmed, hfrac]
  simp [errMedianNan, errMedian, errOutlierNan, errOutlier, optGt, optScale,
    optOneSub, npIsNan]

/-- C8 witness: the theorem applied to an empty separation table. -/
theorem c8_empty_band_failure_witness :
    median_diff_band [] 12000 = none :=
  (c8_empty_band_failure [] rfl).1

end ReqNb

